import Mathlib

/-!
Shallow embedding of the identity and progress-consistency core of the
`backendmaxwavex` learning-platform backend, together with theorems that
settle the frozen claims about its specification.

The embedding follows the JavaScript sources:
* `src/backend/routes/auth.js` — `authenticateToken` (JWT verification and
  normalization of `req.user`);
* `src/backend/routes/progress.js` — the progress upsert, complete and get
  routes over the `progreso_usuarios` table;
* `src/backend/routes/games.js` — `POST /result` (game-result recording) and
  `GET /leaderboard/:gameType` (ordering, limit clamping, ranking).

JavaScript-specific value behaviour (truthiness of `0` and `undefined`, the
`x || 0` idiom, `undefined >= 100` being false) is modelled explicitly on
`Option Int`.  The relational store is modelled as an explicit list of rows
plus an auto-increment counter; each SQL statement of the source becomes a
pure function on that state.
-/

/-! ### JavaScript value helpers -/

/-- The JS idiom `x || 0` on a possibly-undefined number: `undefined` and `0`
are falsy and give `0`, any other number is returned unchanged. -/
def jsOr0 : Option Int → Int
  | none => 0
  | some v => if v = 0 then 0 else v

/-- The JS comparison `x >= 100` on a possibly-undefined number:
`undefined >= 100` evaluates to `false` (NaN comparison). -/
def cpGe100 : Option Int → Bool
  | none => false
  | some v => decide (100 ≤ v)

/-- The guard `x !== undefined && (x < 0 || x > 100)` from the upsert route. -/
def providedOutOfPct : Option Int → Bool
  | none => false
  | some v => decide (v < 0) || decide (100 < v)

/-- The guard `x !== undefined && x < 0` from the upsert route. -/
def providedNegative : Option Int → Bool
  | none => false
  | some v => decide (v < 0)

/-- JS falsiness of a possibly-undefined number: `undefined` and `0` are
falsy (the `!x` test in `games.js`). -/
def numFalsy : Option Int → Bool
  | none => true
  | some v => v == 0

/-- JS falsiness of a possibly-undefined string: `undefined` and the empty
string are falsy (the `!gameType` test in `games.js`). -/
def strFalsy : Option String → Bool
  | none => true
  | some s => s.isEmpty

/-! ### IdentityTokenService — `auth.js` `authenticateToken` -/

/-- Decoded JWT claim set, as produced by `jwt.verify`: the claims this
backend signs carry either `userId`/`email` (registered) or
`guestId`/`sessionId`/`username` (guest), plus `userType` and an expiry. -/
structure JwtPayload where
  userId : Option Nat
  guestId : Option Nat
  sessionId : Option String
  email : Option String
  username : Option String
  userType : Option String
  exp : Nat
deriving Repr, DecidableEq

/-- Abstract symmetric signature over a payload: any fixed computable
function of the secret and the claims serves the embedding, since the
claims only depend on which error category verification reports. -/
def jwtSignature (secret : String) (p : JwtPayload) : Nat :=
  secret.length * 1000003 + p.exp * 7919 +
    (p.userId.getD 0) * 31 + (p.guestId.getD 0) * 17

/-- A token is a claim set together with its signature. -/
structure SignedToken where
  payload : JwtPayload
  signature : Nat
deriving Repr, DecidableEq

/-- `jwt.sign(claims, secret)`. -/
def jwtSign (secret : String) (p : JwtPayload) : SignedToken :=
  ⟨p, jwtSignature secret p⟩

/-- Error categories reported by the `jsonwebtoken` library: a token whose
signature does not verify gives `invalidSignature`; a correctly signed token
past its expiry gives the distinct `tokenExpired`. -/
inductive JwtError where
  | tokenExpired
  | invalidSignature
deriving Repr, DecidableEq

/-- Model of `jwt.verify(token, secret)`: signature first, then expiry. -/
def jwtVerify (secret : String) (now : Nat) (t : SignedToken) :
    Except JwtError JwtPayload :=
  if t.signature ≠ jwtSignature secret t.payload then .error .invalidSignature
  else if t.payload.exp ≤ now then .error .tokenExpired
  else .ok t.payload

/-- The normalized `req.user` object built by `authenticateToken`. -/
structure ReqUser where
  userId : Option Nat
  guestId : Option Nat
  sessionId : Option String
  email : Option String
  username : Option String
  userType : String
deriving Repr, DecidableEq

/-- Outcome of the `authenticateToken` middleware: an HTTP error response
(status and message) or a normalized authenticated user. -/
inductive AuthOutcome where
  | httpError (status : Nat) (msg : String)
  | authenticated (user : ReqUser)
deriving Repr, DecidableEq

/-- `authenticateToken` from `auth.js`: no token gives 401; any
`jwt.verify` failure — expired or badly signed alike — gives the single 403
response; on success `req.user` is normalized with
`userId := decoded.userId || decoded.guestId` and
`userType := decoded.userType || 'student'`. -/
def authenticateToken (secret : String) (now : Nat)
    (token : Option SignedToken) : AuthOutcome :=
  match token with
  | none => .httpError 401 ("Token de acceso requerido")
  | some t =>
    match jwtVerify secret now t with
    | .error _ => .httpError 403 ("Token invalido")
    | .ok d =>
      .authenticated
        { userId := d.userId.orElse (fun _ => d.guestId)
          guestId := d.guestId
          sessionId := d.sessionId
          email := d.email
          username := d.username
          userType := d.userType.getD ("student") }

/-- Normalized caller principal for the routes: every token this backend
issues carries either `userId` with a non-guest `userType` (registration and
login) or `guestId` with `userType = 'guest'` (guest sessions), so the
routes' dispatch on `req.user.userType === 'guest'` splits identities into
these two shapes. -/
inductive Identity where
  | registered (userId : Nat)
  | guest (guestId : Nat)
deriving Repr, DecidableEq

/-- Whether an identity is a guest (`req.user.userType === 'guest'`). -/
def Identity.isGuest : Identity → Bool
  | .registered _ => false
  | .guest _ => true

/-! ### GameResultStore — `games.js` `POST /result` -/

/-- A row of the `resultados_juegos` table. -/
structure GameResultRow where
  id_resultado : Nat
  id_usuario : Option Nat
  id_sesion_invitado : Option Nat
  tipo_juego : String
  puntuacion : Int
  nivel_alcanzado : Int
  tiempo_jugado : Int
  metadatos : Option String
  fecha_juego : Nat
deriving Repr, DecidableEq

/-- The `resultados_juegos` table: rows plus the auto-increment counter. -/
structure GameStore where
  rows : List GameResultRow
  nextId : Nat
deriving Repr, DecidableEq

/-- Request body of `POST /result`; every field may be absent. -/
structure GameResultBody where
  gameType : Option String
  score : Option Int
  levelReached : Option Int
  timePlayed : Option Int
  metadata : Option String
deriving Repr, DecidableEq

/-- Outcome of `POST /result`: 400 "Datos incompletos", 400 "Valores
invalidos", or 201 with the insert id. -/
inductive GameRecordOutcome where
  | incompleteData
  | invalidValues
  | created (resultId : Nat) (score levelReached : Int)
deriving Repr, DecidableEq

/-- The `gameResult` record built by the route: `id_usuario` is null for
guests, `id_sesion_invitado` is null for registered users. -/
def gameRow (ident : Identity) (gameType : String)
    (score levelReached timePlayed : Int) (metadata : Option String)
    (now id : Nat) : GameResultRow :=
  { id_resultado := id
    id_usuario := match ident with
      | .guest _ => none
      | .registered u => some u
    id_sesion_invitado := match ident with
      | .guest g => some g
      | .registered _ => none
    tipo_juego := gameType
    puntuacion := score
    nivel_alcanzado := levelReached
    tiempo_jugado := timePlayed
    metadatos := metadata
    fecha_juego := now }

/-- `POST /result` from `games.js`.  The first guard is the JS test
`!gameType || score === undefined || !levelReached || !timePlayed`, so a
supplied `timePlayed` of `0` (falsy) is rejected as incomplete data; the
second guard is `score < 0 || levelReached < 1 || timePlayed < 0`. -/
def recordGameResult (ident : Identity) (body : GameResultBody) (now : Nat)
    (st : GameStore) : GameRecordOutcome × GameStore :=
  if strFalsy body.gameType || body.score.isNone ||
      numFalsy body.levelReached || numFalsy body.timePlayed then
    (.incompleteData, st)
  else
    let score := body.score.getD 0
    let levelReached := body.levelReached.getD 0
    let timePlayed := body.timePlayed.getD 0
    if score < 0 ∨ levelReached < 1 ∨ timePlayed < 0 then
      (.invalidValues, st)
    else
      let row := gameRow ident (body.gameType.getD ("")) score levelReached
        timePlayed body.metadata now st.nextId
      (.created st.nextId score levelReached,
        ⟨st.rows ++ [row], st.nextId + 1⟩)

/-! ### LeaderboardRanker — `games.js` `GET /leaderboard/:gameType` -/

/-- The route's `Math.min(parseInt(req.query.limit) || 10, 100)`:
`none` stands for a missing or non-numeric query value (`parseInt` gave
NaN), which like an explicit `0` is falsy and defaults to 10; the result is
then capped at 100 from above only. -/
def leaderboardLimit (q : Option Int) : Int :=
  min (match q with
        | none => (10 : Int)
        | some v => if v = 0 then 10 else v) 100

/-- The `ORDER BY puntuacion DESC, nivel_alcanzado DESC, tiempo_jugado ASC`
comparison as a boolean total preorder on rows. -/
def lbLe (a b : GameResultRow) : Bool :=
  if a.puntuacion ≠ b.puntuacion then decide (b.puntuacion < a.puntuacion)
  else if a.nivel_alcanzado ≠ b.nivel_alcanzado then
    decide (b.nivel_alcanzado < a.nivel_alcanzado)
  else decide (a.tiempo_jugado ≤ b.tiempo_jugado)

/-- The leaderboard ordering as a proposition. -/
def lbRel (a b : GameResultRow) : Prop := lbLe a b = true

instance : DecidableRel lbRel := fun a b => by
  unfold lbRel; exact inferInstance

/-- One projected leaderboard entry as selected by the route's query, with
the `LEFT JOIN` name resolution. -/
structure LbRow where
  score : Int
  level_reached : Int
  time_played : Int
  played_at : Nat
  player_name : String
  player_type : String
deriving Repr, DecidableEq

/-- `LEFT JOIN` lookup of a name by id. -/
def lookupName (tbl : List (Nat × String)) : Option Nat → Option String
  | none => none
  | some i => (tbl.find? (fun p => p.1 == i)).map (fun p => p.2)

/-- The SELECT projection: `COALESCE(u.nombre, si.nombre_usuario,
'Anonimo')` and the CASE expression for `player_type`. -/
def lbProject (users guests : List (Nat × String)) (r : GameResultRow) :
    LbRow :=
  let uName := lookupName users r.id_usuario
  let gName := lookupName guests r.id_sesion_invitado
  { score := r.puntuacion
    level_reached := r.nivel_alcanzado
    time_played := r.tiempo_jugado
    played_at := r.fecha_juego
    player_name := ((uName.orElse (fun _ => gName)).getD ("Anonimo"))
    player_type :=
      if uName.isSome then ("registered")
      else if gName.isSome then ("guest")
      else ("anonymous") }

/-- A leaderboard entry with its 1-based rank
(`leaderboard.map((entry, index) => ({rank: index + 1, ...entry}))`). -/
structure RankedEntry where
  rank : Nat
  entry : LbRow
deriving Repr, DecidableEq

/-- Attach consecutive ranks starting from `n`. -/
def addRanks : Nat → List LbRow → List RankedEntry
  | _, [] => []
  | n, e :: l => ⟨n, e⟩ :: addRanks (n + 1) l

/-- `GET /leaderboard/:gameType`: filter by game type, sort by the ORDER BY
key, apply the clamped LIMIT, project, and attach 1-based ranks. -/
def getLeaderboard (users guests : List (Nat × String)) (st : GameStore)
    (gameType : String) (limitQuery : Option Int) : List RankedEntry :=
  let limit := leaderboardLimit limitQuery
  let rows := (List.insertionSort lbRel
    (st.rows.filter (fun r => r.tipo_juego == gameType))).take limit.toNat
  addRanks 1 (rows.map (lbProject users guests))

/-! ### ProgressTracker — `progress.js` -/

/-- A row of the `progreso_usuarios` table.  `ultimo_acceso` is optional
because the row created by the GET route omits it. -/
structure ProgressRow where
  id_progreso : Nat
  id_usuario : Nat
  id_modulo : Nat
  porcentaje_completado : Int
  tiempo_empleado : Int
  puntuacion : Int
  esta_completado : Bool
  ultimo_acceso : Option Nat
deriving Repr, DecidableEq

/-- The `progreso_usuarios` table: rows plus the auto-increment counter. -/
structure ProgressStore where
  rows : List ProgressRow
  nextId : Nat
deriving Repr, DecidableEq

/-- The row predicate of `WHERE id_usuario = ? AND id_modulo = ?`. -/
def matchesUserModule (userId moduleId : Nat) (r : ProgressRow) : Bool :=
  r.id_usuario == userId && r.id_modulo == moduleId

/-- The SELECT of the existing progress rows for a (user, module) pair. -/
def progressFor (userId moduleId : Nat) (st : ProgressStore) :
    List ProgressRow :=
  st.rows.filter (matchesUserModule userId moduleId)

/-- Number of stored rows for a (user, module) pair. -/
def progressCount (userId moduleId : Nat) (st : ProgressStore) : Nat :=
  (progressFor userId moduleId st).length

/-- Outcome of the progress write routes. -/
inductive ProgressOutcome where
  | guestNoop
  | validationError (msg : String)
  | moduleNotFound
  | ok (row : Option ProgressRow)
deriving Repr, DecidableEq

/-- The `progressData` object of the upsert route applied to an existing
row: every one of the five columns is overwritten, with the `|| 0`
defaults; `esta_completado` is the JS `completion_percentage >= 100`. -/
def upsertProgressData (cp ts sc : Option Int) (now : Nat)
    (r : ProgressRow) : ProgressRow :=
  { r with
    porcentaje_completado := jsOr0 cp
    tiempo_empleado := jsOr0 ts
    puntuacion := jsOr0 sc
    esta_completado := cpGe100 cp
    ultimo_acceso := some now }

/-- The freshly inserted row of the upsert route (the existing SELECT came
back empty). -/
def upsertNewRow (userId moduleId : Nat) (cp ts sc : Option Int)
    (now id : Nat) : ProgressRow :=
  { id_progreso := id
    id_usuario := userId
    id_modulo := moduleId
    porcentaje_completado := jsOr0 cp
    tiempo_empleado := jsOr0 ts
    puntuacion := jsOr0 sc
    esta_completado := cpGe100 cp
    ultimo_acceso := some now }

/-- The write half of the upsert: given the rows the existence SELECT
observed, either INSERT a fresh row or UPDATE the first observed row by its
`id_progreso`.  Exposing this as its own step lets interleavings of the
SELECT and the write — the route performs them as two separate store
operations — be expressed directly. -/
def upsertWrite (userId moduleId : Nat) (cp ts sc : Option Int) (now : Nat)
    (observed : List ProgressRow) (st : ProgressStore) : ProgressStore :=
  match observed with
  | [] =>
    ⟨st.rows ++ [upsertNewRow userId moduleId cp ts sc now st.nextId],
      st.nextId + 1⟩
  | existing :: _ =>
    ⟨st.rows.map (fun r =>
        if r.id_progreso == existing.id_progreso then
          upsertProgressData cp ts sc now r
        else r),
      st.nextId⟩

/-- `PUT /:moduleId` from `progress.js`: guests short-circuit with a 200
acknowledgment and no store access; then the three validations, the module
existence check, and the check-then-write upsert; finally the route
re-queries and answers with `updatedProgress[0]`. -/
def upsertProgress (modules : List Nat) (ident : Identity) (moduleId : Nat)
    (completion_percentage time_spent score : Option Int) (now : Nat)
    (st : ProgressStore) : ProgressOutcome × ProgressStore :=
  match ident with
  | .guest _ => (.guestNoop, st)
  | .registered userId =>
    if providedOutOfPct completion_percentage then
      (.validationError ("El porcentaje de completado debe estar entre 0 y 100"), st)
    else if providedNegative time_spent then
      (.validationError ("El tiempo gastado no puede ser negativo"), st)
    else if providedNegative score then
      (.validationError ("La puntuacion no puede ser negativa"), st)
    else if !(modules.contains moduleId) then
      (.moduleNotFound, st)
    else
      let st' := upsertWrite userId moduleId completion_percentage
        time_spent score now (progressFor userId moduleId st) st
      (.ok (progressFor userId moduleId st').head?, st')

/-- The update record of `POST /:moduleId/complete` applied to an existing
row: percentage forced to 100, completed forced to true, score with the
`|| 0` default; `tiempo_empleado` is not among the updated columns. -/
def completeProgressData (sc : Option Int) (now : Nat)
    (r : ProgressRow) : ProgressRow :=
  { r with
    porcentaje_completado := 100
    esta_completado := true
    puntuacion := jsOr0 sc
    ultimo_acceso := some now }

/-- The freshly inserted row of the complete route (the existing SELECT
came back empty); here `tiempo_empleado` is set to 0 explicitly. -/
def completeNewRow (userId moduleId : Nat) (sc : Option Int)
    (now id : Nat) : ProgressRow :=
  { id_progreso := id
    id_usuario := userId
    id_modulo := moduleId
    porcentaje_completado := 100
    tiempo_empleado := 0
    puntuacion := jsOr0 sc
    esta_completado := true
    ultimo_acceso := some now }

/-- The write half of the complete route: INSERT when the existence SELECT
observed nothing, UPDATE of the first observed row otherwise. -/
def completeWrite (userId moduleId : Nat) (sc : Option Int) (now : Nat)
    (observed : List ProgressRow) (st : ProgressStore) : ProgressStore :=
  match observed with
  | [] =>
    ⟨st.rows ++ [completeNewRow userId moduleId sc now st.nextId],
      st.nextId + 1⟩
  | existing :: _ =>
    ⟨st.rows.map (fun r =>
        if r.id_progreso == existing.id_progreso then
          completeProgressData sc now r
        else r),
      st.nextId⟩

/-- `POST /:moduleId/complete` from `progress.js`. -/
def completeProgress (modules : List Nat) (ident : Identity)
    (moduleId : Nat) (score : Option Int) (now : Nat) (st : ProgressStore) :
    ProgressOutcome × ProgressStore :=
  match ident with
  | .guest _ => (.guestNoop, st)
  | .registered userId =>
    if !(modules.contains moduleId) then
      (.moduleNotFound, st)
    else
      let st' := completeWrite userId moduleId score now
        (progressFor userId moduleId st) st
      (.ok (progressFor userId moduleId st').head?, st')

/-- Outcome of `GET /:moduleId`. -/
inductive GetProgressOutcome where
  | guestEmptyList
  | moduleNotFound
  | ok (row : ProgressRow)
deriving Repr, DecidableEq

/-- The all-zero row created by the get route on first access; note the
created record carries no `ultimo_acceso`. -/
def getNewRow (userId moduleId : Nat) (id : Nat) : ProgressRow :=
  { id_progreso := id
    id_usuario := userId
    id_modulo := moduleId
    porcentaje_completado := 0
    tiempo_empleado := 0
    puntuacion := 0
    esta_completado := false
    ultimo_acceso := none }

/-- `GET /:moduleId` from `progress.js`: guests receive an empty list from
`requireRegisteredUser` without any store access; for registered users a
missing row is created with all-zero fields (read with create side
effect). -/
def getProgress (modules : List Nat) (ident : Identity) (moduleId : Nat)
    (st : ProgressStore) : GetProgressOutcome × ProgressStore :=
  match ident with
  | .guest _ => (.guestEmptyList, st)
  | .registered userId =>
    if !(modules.contains moduleId) then
      (.moduleNotFound, st)
    else
      match progressFor userId moduleId st with
      | [] =>
        let row := getNewRow userId moduleId st.nextId
        (.ok row, ⟨st.rows ++ [row], st.nextId + 1⟩)
      | r :: _ => (.ok r, st)

/-- One call against the ProgressTracker routes. -/
inductive ProgressOp where
  | get (ident : Identity) (moduleId : Nat)
  | upsert (ident : Identity) (moduleId : Nat) (cp ts sc : Option Int)
      (now : Nat)
  | complete (ident : Identity) (moduleId : Nat) (sc : Option Int)
      (now : Nat)
deriving Repr, DecidableEq

/-- The identity performing an operation. -/
def ProgressOp.ident : ProgressOp → Identity
  | .get i _ => i
  | .upsert i _ _ _ _ _ => i
  | .complete i _ _ _ => i

/-- Store effect of one call. -/
def applyOp (modules : List Nat) (st : ProgressStore) :
    ProgressOp → ProgressStore
  | .get i m => (getProgress modules i m st).2
  | .upsert i m cp ts sc now =>
    (upsertProgress modules i m cp ts sc now st).2
  | .complete i m sc now => (completeProgress modules i m sc now st).2

/-- Store effect of a sequence of calls, each call run atomically. -/
def runOps (modules : List Nat) (st : ProgressStore) :
    List ProgressOp → ProgressStore
  | [] => st
  | op :: ops => runOps modules (applyOp modules st op) ops

/-- The central consistency invariant: at most one row per
(user, module) pair. -/
def UniquePerUserModule (st : ProgressStore) : Prop :=
  ∀ u m, progressCount u m st ≤ 1

/-- Per-row consistency of the derived flag:
`esta_completado = (porcentaje_completado >= 100)`. -/
def rowConsistent (r : ProgressRow) : Prop :=
  r.esta_completado = decide (100 ≤ r.porcentaje_completado)

/-- Store-wide consistency of the derived flag. -/
def StoreConsistent (st : ProgressStore) : Prop :=
  ∀ r ∈ st.rows, rowConsistent r

/-! ### General helper lemmas -/

/-- Filtering commutes with mapping a function that does not change the
filter predicate. -/
theorem filter_map_comm {α : Type} (g : α → α) (p : α → Bool)
    (h : ∀ a, p (g a) = p a) :
    ∀ l : List α, (l.map g).filter p = (l.filter p).map g := by
  intro l
  induction l with
  | nil => rfl
  | cons a l ih =>
    by_cases hp : p a = true
    · simp [List.filter_cons, h a, hp, ih]
    · simp [List.filter_cons, h a, hp, ih]

/-- `jsOr0` on a present value is the value itself. -/
theorem jsOr0_some (v : Int) : jsOr0 (some v) = v := by
  simp only [jsOr0]
  split <;> omega

/-- The derived-flag computation agrees with comparing the stored value. -/
theorem cpGe100_eq_decide (o : Option Int) :
    cpGe100 o = decide (100 ≤ jsOr0 o) := by
  cases o with
  | none => rfl
  | some v =>
    simp only [cpGe100, jsOr0]
    split
    · rename_i h
      subst h
      rfl
    · rfl

/-- `addRanks` keeps the length of the list. -/
theorem addRanks_length : ∀ (n : Nat) (l : List LbRow),
    (addRanks n l).length = l.length
  | _, [] => rfl
  | n, _ :: l => by simp [addRanks, addRanks_length (n + 1) l]

/-! ### Claim C3 -/

/-- The hardcoded fallback signing key of the observed system. -/
def fallbackSecret : String := "maxwavex_secret_key"

/-- A registered claim set that expires at time 5. -/
def expiredClaims : JwtPayload :=
  { userId := some 1, guestId := none, sessionId := none
    email := some ("a@x.com"), username := none
    userType := some ("student"), exp := 5 }

/-- Claim C3, counterexample: at time 10 the token signed over
`expiredClaims` is correctly signed and past its ttl, and `jwt.verify`
reports the distinct expired category, yet `authenticateToken` answers with
exactly the same 403 "Token invalido" response it gives a token whose
signature is wrong — there is no distinct Expired error. -/
theorem C3_expired_collapses_to_invalid :
    jwtVerify fallbackSecret 10 (jwtSign fallbackSecret expiredClaims)
      = .error .tokenExpired ∧
    authenticateToken fallbackSecret 10
        (some (jwtSign fallbackSecret expiredClaims))
      = .httpError 403 ("Token invalido") ∧
    authenticateToken fallbackSecret 10
        (some ⟨expiredClaims, jwtSignature fallbackSecret expiredClaims + 1⟩)
      = .httpError 403 ("Token invalido") := by
  refine ⟨rfl, rfl, rfl⟩

/-- Claim C3 (amended): token verification answers 401 "Token de acceso
requerido" when no token is supplied, and the single 403 "Token invalido"
response for every verification failure — bad signature and expiry alike;
an expired but correctly signed token is not distinguished from an invalid
one. -/
theorem C3_auth_error_mapping (secret : String) (now : Nat)
    (t : Option SignedToken) :
    (t = none → authenticateToken secret now t
      = .httpError 401 ("Token de acceso requerido")) ∧
    (∀ tok e, t = some tok → jwtVerify secret now tok = .error e →
      authenticateToken secret now t = .httpError 403 ("Token invalido")) := by
  constructor
  · intro h
    subst h
    rfl
  · intro tok e ht he
    subst ht
    simp [authenticateToken, he]

/-- Claim C3, witness for the amended theorem at concrete inputs. -/
theorem C3_auth_error_mapping_witness :
    authenticateToken fallbackSecret 10 none
      = .httpError 401 ("Token de acceso requerido") ∧
    authenticateToken fallbackSecret 10
        (some (jwtSign fallbackSecret expiredClaims))
      = .httpError 403 ("Token invalido") := by
  constructor
  · exact (C3_auth_error_mapping fallbackSecret 10 none).1 rfl
  · exact (C3_auth_error_mapping fallbackSecret 10
      (some (jwtSign fallbackSecret expiredClaims))).2
      (jwtSign fallbackSecret expiredClaims) .tokenExpired rfl rfl

/-! ### Claim C6 -/

/-- Claim C6, counterexample: a supplied limit of `-5` is truthy, so it is
not replaced by the default, and `Math.min(-5, 100)` caps only from above —
the effective limit is `-5`, which does not lie in `[1, 100]`. -/
theorem C6_negative_limit_not_clamped :
    leaderboardLimit (some (-5)) = -5 ∧
    ¬(1 ≤ leaderboardLimit (some (-5)) ∧ leaderboardLimit (some (-5)) ≤ 100) := by
  refine ⟨rfl, by decide⟩

/-- Claim C6 (amended): the effective limit never exceeds 100; a missing or
non-numeric limit and a limit of 0 yield the default 10; values above 100
are capped at 100; every limit of at least 1 yields an effective limit in
`[1, 100]`, and `top(gameType, 500)` returns at most 100 entries — but
negative limits pass through without being raised to 1. -/
theorem C6_limit_clamping (q : Option Int) :
    leaderboardLimit q ≤ 100 ∧
    leaderboardLimit none = 10 ∧
    leaderboardLimit (some 0) = 10 ∧
    (∀ v : Int, 100 < v → leaderboardLimit (some v) = 100) ∧
    (∀ v : Int, 1 ≤ v →
      1 ≤ leaderboardLimit (some v) ∧ leaderboardLimit (some v) ≤ 100) ∧
    (∀ (users guests : List (Nat × String)) (st : GameStore) (gt : String),
      (getLeaderboard users guests st gt (some 500)).length ≤ 100) := by
  refine ⟨?_, rfl, rfl, ?_, ?_, ?_⟩
  · exact min_le_right _ _
  · intro v hv
    have hne : ¬v = 0 := by omega
    simp only [leaderboardLimit, hne, if_false]
    omega
  · intro v hv
    have hne : ¬v = 0 := by omega
    simp only [leaderboardLimit, hne, if_false]
    constructor
    · exact le_min hv (by norm_num)
    · exact min_le_right _ _
  · intro users guests st gt
    show (addRanks 1 _).length ≤ 100
    rw [addRanks_length, List.length_map, List.length_take]
    have h500 : (leaderboardLimit (some 500)).toNat = 100 := rfl
    rw [h500]
    exact Nat.min_le_left _ _

/-- Claim C6, witness for the amended theorem at concrete inputs. -/
theorem C6_limit_clamping_witness :
    leaderboardLimit (some 500) = 100 ∧
    (1 ≤ leaderboardLimit (some 7) ∧ leaderboardLimit (some 7) ≤ 100) ∧
    (getLeaderboard [] [] ⟨[], 1⟩ ("snake") (some 500)).length ≤ 100 := by
  refine ⟨?_, ?_, ?_⟩
  · exact (C6_limit_clamping (some 500)).2.2.2.1 500 (by norm_num)
  · exact (C6_limit_clamping (some 7)).2.2.2.2.1 7 (by norm_num)
  · exact (C6_limit_clamping none).2.2.2.2.2 [] [] ⟨[], 1⟩ ("snake")

/-! ### Claim C8 -/

/-- Claim C8: for every supplied percentage below 0 or above 100, the
upsert answers with the validation error and the store is returned exactly
as it was — no row is created and none is changed. -/
theorem C8_out_of_range_pct_is_noop (modules : List Nat)
    (userId moduleId : Nat) (p : Int) (ts sc : Option Int) (now : Nat)
    (st : ProgressStore) (h : p < 0 ∨ 100 < p) :
    upsertProgress modules (.registered userId) moduleId (some p) ts sc now st
      = (.validationError
          ("El porcentaje de completado debe estar entre 0 y 100"), st) := by
  have hp : providedOutOfPct (some p) = true := by
    rcases h with h | h <;> simp [providedOutOfPct, h]
  simp [upsertProgress, hp]

/-- Claim C8, witness: percentage 150 on a store holding one row. -/
theorem C8_out_of_range_pct_is_noop_witness :
    upsertProgress [3] (.registered 7) 3 (some 150) none none 99
        ⟨[{ id_progreso := 1, id_usuario := 7, id_modulo := 3
            porcentaje_completado := 40, tiempo_empleado := 5
            puntuacion := 2, esta_completado := false
            ultimo_acceso := some 8 }], 2⟩
      = (.validationError
          ("El porcentaje de completado debe estar entre 0 y 100"),
         ⟨[{ id_progreso := 1, id_usuario := 7, id_modulo := 3
             porcentaje_completado := 40, tiempo_empleado := 5
             puntuacion := 2, esta_completado := false
             ultimo_acceso := some 8 }], 2⟩) :=
  C8_out_of_range_pct_is_noop [3] 7 3 150 none none 99 _ (by norm_num)

/-! ### Claim C9 -/

/-- A guest call leaves the store untouched. -/
theorem applyOp_guest_frame (modules : List Nat) (st : ProgressStore)
    (op : ProgressOp) (h : op.ident.isGuest = true) :
    applyOp modules st op = st := by
  cases op with
  | get i m =>
    cases i with
    | registered u => simp [ProgressOp.ident, Identity.isGuest] at h
    | guest g => rfl
  | upsert i m cp ts sc now =>
    cases i with
    | registered u => simp [ProgressOp.ident, Identity.isGuest] at h
    | guest g => rfl
  | complete i m sc now =>
    cases i with
    | registered u => simp [ProgressOp.ident, Identity.isGuest] at h
    | guest g => rfl

/-- Claim C9: guest identities never touch the Progress store — the get
route answers the empty list and the write routes answer a success
acknowledgment, all without a store access, and any sequence of guest
calls leaves the store exactly as it was. -/
theorem C9_guests_never_persist :
    (∀ (modules : List Nat) (g moduleId : Nat) (cp ts sc : Option Int)
        (now : Nat) (st : ProgressStore),
      upsertProgress modules (.guest g) moduleId cp ts sc now st
        = (.guestNoop, st)) ∧
    (∀ (modules : List Nat) (g moduleId : Nat) (st : ProgressStore),
      getProgress modules (.guest g) moduleId st = (.guestEmptyList, st)) ∧
    (∀ (modules : List Nat) (g moduleId : Nat) (sc : Option Int) (now : Nat)
        (st : ProgressStore),
      completeProgress modules (.guest g) moduleId sc now st
        = (.guestNoop, st)) ∧
    (∀ (modules : List Nat) (st : ProgressStore) (ops : List ProgressOp),
      (∀ op ∈ ops, op.ident.isGuest = true) → runOps modules st ops = st) := by
  refine ⟨fun _ _ _ _ _ _ _ _ => rfl, fun _ _ _ _ => rfl,
    fun _ _ _ _ _ _ => rfl, ?_⟩
  intro modules st ops
  induction ops generalizing st with
  | nil => intro _; rfl
  | cons op ops ih =>
    intro h
    have hop := h op (List.mem_cons_self op ops)
    show runOps modules (applyOp modules st op) ops = st
    rw [applyOp_guest_frame modules st op hop]
    exact ih st (fun o ho => h o (List.mem_cons_of_mem op ho))

/-- Claim C9, witness: a concrete guest upsert and a concrete sequence of
guest calls on a one-row store. -/
theorem C9_guests_never_persist_witness :
    upsertProgress [3] (.guest 5) 3 (some 50) none none 9 ⟨[], 1⟩
      = (.guestNoop, ⟨[], 1⟩) ∧
    runOps [3] ⟨[], 1⟩
        [.upsert (.guest 5) 3 (some 50) none none 9,
         .get (.guest 5) 3,
         .complete (.guest 5) 3 (some 4) 10]
      = ⟨[], 1⟩ := by
  constructor
  · exact C9_guests_never_persist.1 [3] 5 3 (some 50) none none 9 ⟨[], 1⟩
  · exact C9_guests_never_persist.2.2.2 [3] ⟨[], 1⟩ _ (by decide)

/-! ### Claim C2 -/

/-- A request body for `POST /result` in which every field was supplied. -/
def presentBody (gt : String) (s lv tp : Int) (md : Option String) :
    GameResultBody :=
  { gameType := some gt, score := some s, levelReached := some lv
    timePlayed := some tp, metadata := md }

/-- Claim C2, counterexample: a submission with non-empty game type,
score 5 ≥ 0, level 1 ≥ 1 and timePlayed 0 ≥ 0 — which the claim says must
succeed and insert a row — is rejected as incomplete data (`!timePlayed`
treats the supplied 0 as missing) and nothing is stored. -/
theorem C2_zero_time_rejected :
    recordGameResult (.registered 1) (presentBody ("snake") 5 1 0 none) 0
        ⟨[], 1⟩
      = (.incompleteData, ⟨[], 1⟩) := rfl

/-- Claim C2 (amended): with every field supplied, `recordGameResult`
succeeds and inserts a new row exactly when the game type is non-empty,
`score ≥ 0` (score 0 included), `levelReached ≥ 1` and `timePlayed ≥ 1`;
an empty game type, a level of 0 or a timePlayed of 0 is rejected as
incomplete data (0 is falsy in the `!levelReached || !timePlayed` guard),
and otherwise a negative score, level below 1 or negative time is rejected
as invalid values.  In every rejection the store is unchanged. -/
theorem C2_record_validation (ident : Identity) (gt : String)
    (s lv tp : Int) (md : Option String) (now : Nat) (st : GameStore) :
    (gt ≠ "" → 0 ≤ s → 1 ≤ lv → 1 ≤ tp →
      recordGameResult ident (presentBody gt s lv tp md) now st
        = (.created st.nextId s lv,
           ⟨st.rows ++ [gameRow ident gt s lv tp md now st.nextId],
            st.nextId + 1⟩)) ∧
    ((gt = "" ∨ lv = 0 ∨ tp = 0) →
      recordGameResult ident (presentBody gt s lv tp md) now st
        = (.incompleteData, st)) ∧
    (gt ≠ "" → lv ≠ 0 → tp ≠ 0 → (s < 0 ∨ lv < 1 ∨ tp < 0) →
      recordGameResult ident (presentBody gt s lv tp md) now st
        = (.invalidValues, st)) := by
  refine ⟨?_, ?_, ?_⟩
  · intro hgt hs hlv htp
    have h1 : strFalsy (some gt) = false := by
      cases hb : gt.isEmpty with
      | false => exact hb
      | true => exact absurd ((String.isEmpty_iff gt).mp hb) hgt
    have h2 : numFalsy (some lv) = false := by
      simp only [numFalsy, beq_eq_false_iff_ne, ne_eq]
      omega
    have h3 : numFalsy (some tp) = false := by
      simp only [numFalsy, beq_eq_false_iff_ne, ne_eq]
      omega
    simp only [recordGameResult, presentBody, h1, h2, h3, Option.isNone_some,
      Bool.or_self, Bool.or_false, Bool.false_or, Bool.false_eq_true,
      if_false, Option.getD_some]
    rw [if_neg (by omega)]
  · intro h
    rcases h with h | h | h
    · subst h
      have hbe : strFalsy (some "") = true := rfl
      simp [recordGameResult, presentBody, hbe]
    · subst h
      simp [recordGameResult, presentBody, numFalsy]
    · subst h
      simp [recordGameResult, presentBody, numFalsy]
  · intro hgt hlv htp hbad
    have h1 : strFalsy (some gt) = false := by
      cases hb : gt.isEmpty with
      | false => exact hb
      | true => exact absurd ((String.isEmpty_iff gt).mp hb) hgt
    have h2 : numFalsy (some lv) = false := by
      simp only [numFalsy, beq_eq_false_iff_ne, ne_eq]
      exact hlv
    have h3 : numFalsy (some tp) = false := by
      simp only [numFalsy, beq_eq_false_iff_ne, ne_eq]
      exact htp
    simp only [recordGameResult, presentBody, h1, h2, h3, Option.isNone_some,
      Bool.or_self, Bool.or_false, Bool.false_or, Bool.false_eq_true,
      if_false, Option.getD_some]
    rw [if_pos hbad]

/-- Claim C2, witness for the amended theorem: a successful submission, a
zero-time rejection and a negative-score rejection, all concrete. -/
theorem C2_record_validation_witness :
    recordGameResult (.registered 7) (presentBody ("snake") 5 1 2 none) 9
        ⟨[], 1⟩
      = (.created 1 5 1,
         ⟨[gameRow (.registered 7) ("snake") 5 1 2 none 9 1], 2⟩) ∧
    recordGameResult (.registered 7) (presentBody ("snake") 5 1 0 none) 9
        ⟨[], 1⟩
      = (.incompleteData, ⟨[], 1⟩) ∧
    recordGameResult (.registered 7) (presentBody ("snake") (-1) 1 2 none) 9
        ⟨[], 1⟩
      = (.invalidValues, ⟨[], 1⟩) := by
  refine ⟨?_, ?_, ?_⟩
  · exact (C2_record_validation (.registered 7) ("snake") 5 1 2 none 9
      ⟨[], 1⟩).1 (by decide) (by norm_num) (by norm_num) (by norm_num)
  · exact (C2_record_validation (.registered 7) ("snake") 5 1 0 none 9
      ⟨[], 1⟩).2.1 (Or.inr (Or.inr rfl))
  · exact (C2_record_validation (.registered 7) ("snake") (-1) 1 2 none 9
      ⟨[], 1⟩).2.2 (by decide) (by norm_num) (by norm_num)
      (Or.inl (by norm_num))

/-! ### Claim C5 -/

/-- Exactly one of the two owner columns of a game-result row is set. -/
def exactlyOneOwner (r : GameResultRow) : Prop :=
  (r.id_usuario ≠ none ∧ r.id_sesion_invitado = none) ∨
  (r.id_usuario = none ∧ r.id_sesion_invitado ≠ none)

/-- Claim C5: every row `recordGameResult` ever stores has exactly one of
`id_usuario` / `id_sesion_invitado` set — for a guest identity the guest
session id is set and the user id is null, for a registered identity the
reverse; a store in which every row satisfies this keeps satisfying it
after any call. -/
theorem C5_exactly_one_owner (ident : Identity) (body : GameResultBody)
    (now : Nat) (st : GameStore)
    (hst : ∀ r ∈ st.rows, exactlyOneOwner r) :
    (∀ r ∈ (recordGameResult ident body now st).2.rows, exactlyOneOwner r) ∧
    (∀ u gt s lv tp md id, ident = .registered u →
      (gameRow ident gt s lv tp md now id).id_usuario = some u ∧
      (gameRow ident gt s lv tp md now id).id_sesion_invitado = none) ∧
    (∀ g gt s lv tp md id, ident = .guest g →
      (gameRow ident gt s lv tp md now id).id_usuario = none ∧
      (gameRow ident gt s lv tp md now id).id_sesion_invitado = some g) := by
  have hrow : ∀ gt s lv tp md id,
      exactlyOneOwner (gameRow ident gt s lv tp md now id) := by
    intro gt s lv tp md id
    cases ident with
    | registered u =>
      left
      exact ⟨by simp [gameRow], rfl⟩
    | guest g =>
      right
      exact ⟨rfl, by simp [gameRow]⟩
  refine ⟨?_, ?_, ?_⟩
  · intro r hr
    by_cases h1 : (strFalsy body.gameType || body.score.isNone ||
        numFalsy body.levelReached || numFalsy body.timePlayed) = true
    · simp only [recordGameResult, h1, if_true] at hr
      exact hst r hr
    · simp only [recordGameResult, h1, if_false] at hr
      by_cases h2 : (body.score.getD 0 < 0 ∨ body.levelReached.getD 0 < 1 ∨
          body.timePlayed.getD 0 < 0)
      · simp only [if_pos h2] at hr
        exact hst r hr
      · simp only [if_neg h2] at hr
        rcases List.mem_append.mp hr with hmem | hmem
        · exact hst r hmem
        · rcases List.mem_singleton.mp hmem with rfl
          exact hrow _ _ _ _ _ _
  · intro u gt s lv tp md id hid
    subst hid
    exact ⟨rfl, rfl⟩
  · intro g gt s lv tp md id hid
    subst hid
    exact ⟨rfl, rfl⟩

/-- Claim C5, witness: a registered insert and a guest insert, concrete. -/
theorem C5_exactly_one_owner_witness :
    exactlyOneOwner (gameRow (.registered 7) ("snake") 5 1 2 none 9 1) ∧
    exactlyOneOwner (gameRow (.guest 4) ("snake") 5 1 2 none 9 1) := by
  constructor
  · exact (C5_exactly_one_owner (.registered 7)
      (presentBody ("snake") 5 1 2 none) 9 ⟨[], 1⟩ (by simp)).1
      (gameRow (.registered 7) ("snake") 5 1 2 none 9 1) (by decide)
  · exact (C5_exactly_one_owner (.guest 4)
      (presentBody ("snake") 5 1 2 none) 9 ⟨[], 1⟩ (by simp)).1
      (gameRow (.guest 4) ("snake") 5 1 2 none 9 1) (by decide)

/-! ### Progress-store helper lemmas -/

/-- The upsert update record keeps the (user, module) key of the row. -/
theorem matchesUserModule_upsertData (u m : Nat) (cp ts sc : Option Int)
    (now : Nat) (r : ProgressRow) :
    matchesUserModule u m (upsertProgressData cp ts sc now r)
      = matchesUserModule u m r := rfl

/-- The complete update record keeps the (user, module) key of the row. -/
theorem matchesUserModule_completeData (u m : Nat) (sc : Option Int)
    (now : Nat) (r : ProgressRow) :
    matchesUserModule u m (completeProgressData sc now r)
      = matchesUserModule u m r := rfl

/-- A freshly inserted upsert row matches its own (user, module) key. -/
theorem matchesUserModule_upsertNewRow (userId moduleId : Nat)
    (cp ts sc : Option Int) (now id : Nat) :
    matchesUserModule userId moduleId
      (upsertNewRow userId moduleId cp ts sc now id) = true := by
  simp [matchesUserModule, upsertNewRow]

/-- A guarded per-row update preserves the (user, module) key predicate as
long as the underlying update does. -/
theorem matchesUserModule_guarded (u m pid : Nat)
    (f : ProgressRow → ProgressRow)
    (hf : ∀ r, matchesUserModule u m (f r) = matchesUserModule u m r)
    (r : ProgressRow) :
    matchesUserModule u m (if r.id_progreso == pid then f r else r)
      = matchesUserModule u m r := by
  split
  · exact hf r
  · rfl

/-- The SELECT for a pair after an UPDATE by `id_progreso` is the update
mapped over the original SELECT, provided the update keeps the key. -/
theorem progressFor_update (userId moduleId pid : Nat)
    (f : ProgressRow → ProgressRow)
    (hf : ∀ r, matchesUserModule userId moduleId (f r)
      = matchesUserModule userId moduleId r)
    (st : ProgressStore) (n : Nat) :
    progressFor userId moduleId
        ⟨st.rows.map (fun r => if r.id_progreso == pid then f r else r), n⟩
      = (progressFor userId moduleId st).map
          (fun r => if r.id_progreso == pid then f r else r) := by
  unfold progressFor
  exact filter_map_comm _ _
    (matchesUserModule_guarded userId moduleId pid f hf) st.rows

/-- The SELECT for a pair after an INSERT appends the new row when it
matches the pair and is unchanged otherwise. -/
theorem progressFor_append (userId moduleId : Nat)
    (rows : List ProgressRow) (row : ProgressRow) (n n' : Nat) :
    progressFor userId moduleId ⟨rows ++ [row], n⟩
      = progressFor userId moduleId ⟨rows, n'⟩ ++
          (if matchesUserModule userId moduleId row then [row] else []) := by
  unfold progressFor
  rw [List.filter_append]
  congr 1
  simp [List.filter_cons]

/-! ### Claim C10 -/

/-- Claim C10: for a registered user with an existing Progress row, an
upsert in which all three body fields are omitted overwrites the stored
percentage, time and score with 0 and stores `completed = false`
(`undefined >= 100` is false) — the update record always carries all five
columns with their `|| 0` defaults, so a partial update is destructive. -/
theorem C10_partial_update_destructive (modules : List Nat)
    (userId moduleId now : Nat) (st : ProgressStore) (r : ProgressRow)
    (rest : List ProgressRow) (hmod : modules.contains moduleId = true)
    (hex : progressFor userId moduleId st = r :: rest) :
    upsertProgress modules (.registered userId) moduleId none none none now st
      = (.ok (some (upsertProgressData none none none now r)),
         ⟨st.rows.map (fun x => if x.id_progreso == r.id_progreso
             then upsertProgressData none none none now x else x),
          st.nextId⟩) ∧
    (upsertProgressData none none none now r).porcentaje_completado = 0 ∧
    (upsertProgressData none none none now r).tiempo_empleado = 0 ∧
    (upsertProgressData none none none now r).puntuacion = 0 ∧
    (upsertProgressData none none none now r).esta_completado = false ∧
    (upsertProgressData none none none now r).ultimo_acceso = some now ∧
    (upsertProgressData none none none now r).id_progreso = r.id_progreso := by
  refine ⟨?_, rfl, rfl, rfl, rfl, rfl, rfl⟩
  have hguard : (!modules.contains moduleId) = false := by
    rw [hmod]
    rfl
  simp only [upsertProgress, providedOutOfPct, providedNegative, hguard,
    Bool.false_eq_true, if_false, upsertWrite, hex]
  rw [progressFor_update userId moduleId r.id_progreso _
    (matchesUserModule_upsertData userId moduleId none none none now), hex]
  simp [List.head?]

/-- A concrete existing Progress row for the C10 witness. -/
def c10Row : ProgressRow :=
  { id_progreso := 1, id_usuario := 7, id_modulo := 3
    porcentaje_completado := 50, tiempo_empleado := 30, puntuacion := 9
    esta_completado := false, ultimo_acceso := some 5 }

/-- Claim C10, witness: the stored row (50, 30, 9) is overwritten with
zeros by an upsert whose body omits every field. -/
theorem C10_partial_update_destructive_witness :
    upsertProgress [3] (.registered 7) 3 none none none 99 ⟨[c10Row], 2⟩
      = (.ok (some (upsertProgressData none none none 99 c10Row)),
         ⟨[upsertProgressData none none none 99 c10Row], 2⟩) ∧
    (upsertProgressData none none none 99 c10Row).porcentaje_completado = 0 ∧
    (upsertProgressData none none none 99 c10Row).esta_completado = false := by
  have h := C10_partial_update_destructive [3] 7 3 99 ⟨[c10Row], 2⟩ c10Row []
    rfl rfl
  exact ⟨h.1, h.2.1, h.2.2.2.2.1⟩

/-! ### Derived-flag consistency lemmas -/

/-- Every row the upsert UPDATE writes has the flag in sync. -/
theorem rowConsistent_upsertData (cp ts sc : Option Int) (now : Nat)
    (r : ProgressRow) : rowConsistent (upsertProgressData cp ts sc now r) :=
  cpGe100_eq_decide cp

/-- Every row the upsert INSERT writes has the flag in sync. -/
theorem rowConsistent_upsertNewRow (userId moduleId : Nat)
    (cp ts sc : Option Int) (now id : Nat) :
    rowConsistent (upsertNewRow userId moduleId cp ts sc now id) :=
  cpGe100_eq_decide cp

/-- Every row the complete UPDATE writes has the flag in sync. -/
theorem rowConsistent_completeData (sc : Option Int) (now : Nat)
    (r : ProgressRow) : rowConsistent (completeProgressData sc now r) := rfl

/-- Every row the complete INSERT writes has the flag in sync. -/
theorem rowConsistent_completeNewRow (userId moduleId : Nat)
    (sc : Option Int) (now id : Nat) :
    rowConsistent (completeNewRow userId moduleId sc now id) := rfl

/-- The all-zero row created by the get route has the flag in sync. -/
theorem rowConsistent_getNewRow (userId moduleId id : Nat) :
    rowConsistent (getNewRow userId moduleId id) := rfl

/-- Appending a consistent row keeps the store consistent. -/
theorem storeConsistent_append (st : ProgressStore) (row : ProgressRow)
    (n : Nat) (h : StoreConsistent st) (hrow : rowConsistent row) :
    StoreConsistent ⟨st.rows ++ [row], n⟩ := by
  intro r hr
  rcases List.mem_append.mp hr with hr | hr
  · exact h r hr
  · rcases List.mem_singleton.mp hr with rfl
    exact hrow

/-- A guarded per-row update whose update always writes a consistent row
keeps the store consistent. -/
theorem storeConsistent_mapUpdate (st : ProgressStore) (n pid : Nat)
    (f : ProgressRow → ProgressRow) (h : StoreConsistent st)
    (hf : ∀ r, rowConsistent (f r)) :
    StoreConsistent
      ⟨st.rows.map (fun r => if r.id_progreso == pid then f r else r), n⟩ := by
  intro r hr
  rcases List.mem_map.mp hr with ⟨x, hx, rfl⟩
  split
  · exact hf x
  · exact h x hx

/-- The upsert write step keeps the store consistent. -/
theorem storeConsistent_upsertWrite (userId moduleId : Nat)
    (cp ts sc : Option Int) (now : Nat) (observed : List ProgressRow)
    (st : ProgressStore) (h : StoreConsistent st) :
    StoreConsistent (upsertWrite userId moduleId cp ts sc now observed st) := by
  cases observed with
  | nil =>
    exact storeConsistent_append st _ _ h
      (rowConsistent_upsertNewRow userId moduleId cp ts sc now st.nextId)
  | cons e rest =>
    exact storeConsistent_mapUpdate st st.nextId e.id_progreso _ h
      (fun r => rowConsistent_upsertData cp ts sc now r)

/-- The complete write step keeps the store consistent. -/
theorem storeConsistent_completeWrite (userId moduleId : Nat)
    (sc : Option Int) (now : Nat) (observed : List ProgressRow)
    (st : ProgressStore) (h : StoreConsistent st) :
    StoreConsistent (completeWrite userId moduleId sc now observed st) := by
  cases observed with
  | nil =>
    exact storeConsistent_append st _ _ h
      (rowConsistent_completeNewRow userId moduleId sc now st.nextId)
  | cons e rest =>
    exact storeConsistent_mapUpdate st st.nextId e.id_progreso _ h
      (fun r => rowConsistent_completeData sc now r)

/-! ### Store-effect case lemmas for the three routes -/

/-- The get route either leaves the store alone or appends the all-zero
created row for a pair that had none. -/
theorem getProgress_snd_cases (modules : List Nat) (ident : Identity)
    (moduleId : Nat) (st : ProgressStore) :
    (getProgress modules ident moduleId st).2 = st ∨
    ∃ userId, ident = .registered userId ∧
      progressFor userId moduleId st = [] ∧
      (getProgress modules ident moduleId st).2
        = ⟨st.rows ++ [getNewRow userId moduleId st.nextId],
           st.nextId + 1⟩ := by
  cases ident with
  | guest g => left; rfl
  | registered u =>
    by_cases h4 : moduleId ∈ modules
    · cases hpf : progressFor u moduleId st with
      | nil =>
        right
        exact ⟨u, rfl, hpf, by simp [getProgress, h4, hpf]⟩
      | cons e rest =>
        left
        simp [getProgress, h4, hpf]
    · left
      simp [getProgress, h4]

/-- The upsert route either leaves the store alone or performs the write
step on what its existence SELECT observed. -/
theorem upsertProgress_snd_cases (modules : List Nat) (ident : Identity)
    (moduleId : Nat) (cp ts sc : Option Int) (now : Nat)
    (st : ProgressStore) :
    (upsertProgress modules ident moduleId cp ts sc now st).2 = st ∨
    ∃ userId, ident = .registered userId ∧
      (upsertProgress modules ident moduleId cp ts sc now st).2
        = upsertWrite userId moduleId cp ts sc now
            (progressFor userId moduleId st) st := by
  cases ident with
  | guest g => left; rfl
  | registered u =>
    by_cases h1 : providedOutOfPct cp = true
    · left; simp [upsertProgress, h1]
    · by_cases h2 : providedNegative ts = true
      · left; simp [upsertProgress, h1, h2]
      · by_cases h3 : providedNegative sc = true
        · left; simp [upsertProgress, h1, h2, h3]
        · by_cases h4 : moduleId ∈ modules
          · right; exact ⟨u, rfl, by simp [upsertProgress, h1, h2, h3, h4]⟩
          · left; simp [upsertProgress, h1, h2, h3, h4]

/-- The complete route either leaves the store alone or performs the
complete write step on what its existence SELECT observed. -/
theorem completeProgress_snd_cases (modules : List Nat) (ident : Identity)
    (moduleId : Nat) (sc : Option Int) (now : Nat) (st : ProgressStore) :
    (completeProgress modules ident moduleId sc now st).2 = st ∨
    ∃ userId, ident = .registered userId ∧
      (completeProgress modules ident moduleId sc now st).2
        = completeWrite userId moduleId sc now
            (progressFor userId moduleId st) st := by
  cases ident with
  | guest g => left; rfl
  | registered u =>
    by_cases h4 : moduleId ∈ modules
    · right; exact ⟨u, rfl, by simp [completeProgress, h4]⟩
    · left; simp [completeProgress, h4]

/-- One call keeps the store flag-consistent. -/
theorem storeConsistent_applyOp (modules : List Nat) (st : ProgressStore)
    (op : ProgressOp) (h : StoreConsistent st) :
    StoreConsistent (applyOp modules st op) := by
  cases op with
  | get i m =>
    show StoreConsistent (getProgress modules i m st).2
    rcases getProgress_snd_cases modules i m st with hc | ⟨u, _, _, hc⟩
    · rw [hc]; exact h
    · rw [hc]
      exact storeConsistent_append st _ _ h
        (rowConsistent_getNewRow u m st.nextId)
  | upsert i m cp ts sc now =>
    show StoreConsistent (upsertProgress modules i m cp ts sc now st).2
    rcases upsertProgress_snd_cases modules i m cp ts sc now st with
      hc | ⟨u, _, hc⟩
    · rw [hc]; exact h
    · rw [hc]
      exact storeConsistent_upsertWrite u m cp ts sc now _ st h
  | complete i m sc now =>
    show StoreConsistent (completeProgress modules i m sc now st).2
    rcases completeProgress_snd_cases modules i m sc now st with
      hc | ⟨u, _, hc⟩
    · rw [hc]; exact h
    · rw [hc]
      exact storeConsistent_completeWrite u m sc now _ st h

/-- A freshly inserted complete row matches its own (user, module) key. -/
theorem matchesUserModule_completeNewRow (userId moduleId : Nat)
    (sc : Option Int) (now id : Nat) :
    matchesUserModule userId moduleId
      (completeNewRow userId moduleId sc now id) = true := by
  simp [matchesUserModule, completeNewRow]

/-- A valid registered upsert succeeds and answers with a row carrying the
`|| 0`-defaulted fields and the `>= 100`-derived flag. -/
theorem upsertProgress_ok (modules : List Nat) (userId moduleId : Nat)
    (cp ts sc : Option Int) (now : Nat) (st : ProgressStore)
    (hcp : providedOutOfPct cp = false) (hts : providedNegative ts = false)
    (hsc : providedNegative sc = false) (hmod : moduleId ∈ modules) :
    ∃ row st',
      upsertProgress modules (.registered userId) moduleId cp ts sc now st
        = (.ok (some row), st') ∧
      row.porcentaje_completado = jsOr0 cp ∧
      row.tiempo_empleado = jsOr0 ts ∧
      row.puntuacion = jsOr0 sc ∧
      row.esta_completado = cpGe100 cp ∧
      row.ultimo_acceso = some now := by
  have hcp' : ¬providedOutOfPct cp = true := by simp [hcp]
  have hts' : ¬providedNegative ts = true := by simp [hts]
  have hsc' : ¬providedNegative sc = true := by simp [hsc]
  have hmain : upsertProgress modules (.registered userId) moduleId cp ts sc
      now st
      = (.ok ((progressFor userId moduleId (upsertWrite userId moduleId cp
          ts sc now (progressFor userId moduleId st) st)).head?),
         upsertWrite userId moduleId cp ts sc now
           (progressFor userId moduleId st) st) := by
    simp [upsertProgress, hcp', hts', hsc', hmod]
  cases hpf : progressFor userId moduleId st with
  | nil =>
    have hW : upsertWrite userId moduleId cp ts sc now
        (progressFor userId moduleId st) st
        = ⟨st.rows ++ [upsertNewRow userId moduleId cp ts sc now st.nextId],
           st.nextId + 1⟩ := by
      rw [hpf]
      rfl
    have hQ : progressFor userId moduleId
        ⟨st.rows ++ [upsertNewRow userId moduleId cp ts sc now st.nextId],
         st.nextId + 1⟩
        = [upsertNewRow userId moduleId cp ts sc now st.nextId] := by
      rw [progressFor_append userId moduleId st.rows _ (st.nextId + 1)
        st.nextId]
      have h0 : progressFor userId moduleId ⟨st.rows, st.nextId⟩ = [] := hpf
      rw [h0]
      simp [matchesUserModule_upsertNewRow]
    refine ⟨upsertNewRow userId moduleId cp ts sc now st.nextId,
      upsertWrite userId moduleId cp ts sc now
        (progressFor userId moduleId st) st,
      ?_, rfl, rfl, rfl, rfl, rfl⟩
    rw [hmain, hW, hQ]
    rfl
  | cons e rest =>
    have hW : upsertWrite userId moduleId cp ts sc now
        (progressFor userId moduleId st) st
        = ⟨st.rows.map (fun r => if r.id_progreso == e.id_progreso
            then upsertProgressData cp ts sc now r else r), st.nextId⟩ := by
      rw [hpf]
      rfl
    have hQ : progressFor userId moduleId
        ⟨st.rows.map (fun r => if r.id_progreso == e.id_progreso
            then upsertProgressData cp ts sc now r else r), st.nextId⟩
        = (e :: rest).map (fun r => if r.id_progreso == e.id_progreso
            then upsertProgressData cp ts sc now r else r) := by
      rw [progressFor_update userId moduleId e.id_progreso _
        (matchesUserModule_upsertData userId moduleId cp ts sc now), hpf]
    refine ⟨upsertProgressData cp ts sc now e,
      upsertWrite userId moduleId cp ts sc now
        (progressFor userId moduleId st) st,
      ?_, rfl, rfl, rfl, rfl, rfl⟩
    rw [hmain, hW, hQ]
    simp

/-- A registered complete call succeeds and answers with a row holding
percentage 100 and the flag forced to true. -/
theorem completeProgress_ok (modules : List Nat) (userId moduleId : Nat)
    (sc : Option Int) (now : Nat) (st : ProgressStore)
    (hmod : moduleId ∈ modules) :
    ∃ row st',
      completeProgress modules (.registered userId) moduleId sc now st
        = (.ok (some row), st') ∧
      row.porcentaje_completado = 100 ∧
      row.esta_completado = true ∧
      row.puntuacion = jsOr0 sc ∧
      row.ultimo_acceso = some now := by
  have hmain : completeProgress modules (.registered userId) moduleId sc now
      st
      = (.ok ((progressFor userId moduleId (completeWrite userId moduleId
          sc now (progressFor userId moduleId st) st)).head?),
         completeWrite userId moduleId sc now
           (progressFor userId moduleId st) st) := by
    simp [completeProgress, hmod]
  cases hpf : progressFor userId moduleId st with
  | nil =>
    have hW : completeWrite userId moduleId sc now
        (progressFor userId moduleId st) st
        = ⟨st.rows ++ [completeNewRow userId moduleId sc now st.nextId],
           st.nextId + 1⟩ := by
      rw [hpf]
      rfl
    have hQ : progressFor userId moduleId
        ⟨st.rows ++ [completeNewRow userId moduleId sc now st.nextId],
         st.nextId + 1⟩
        = [completeNewRow userId moduleId sc now st.nextId] := by
      rw [progressFor_append userId moduleId st.rows _ (st.nextId + 1)
        st.nextId]
      have h0 : progressFor userId moduleId ⟨st.rows, st.nextId⟩ = [] := hpf
      rw [h0]
      simp [matchesUserModule_completeNewRow]
    refine ⟨completeNewRow userId moduleId sc now st.nextId,
      completeWrite userId moduleId sc now
        (progressFor userId moduleId st) st,
      ?_, rfl, rfl, rfl, rfl⟩
    rw [hmain, hW, hQ]
    rfl
  | cons e rest =>
    have hW : completeWrite userId moduleId sc now
        (progressFor userId moduleId st) st
        = ⟨st.rows.map (fun r => if r.id_progreso == e.id_progreso
            then completeProgressData sc now r else r), st.nextId⟩ := by
      rw [hpf]
      rfl
    have hQ : progressFor userId moduleId
        ⟨st.rows.map (fun r => if r.id_progreso == e.id_progreso
            then completeProgressData sc now r else r), st.nextId⟩
        = (e :: rest).map (fun r => if r.id_progreso == e.id_progreso
            then completeProgressData sc now r else r) := by
      rw [progressFor_update userId moduleId e.id_progreso _
        (matchesUserModule_completeData userId moduleId sc now), hpf]
    refine ⟨completeProgressData sc now e,
      completeWrite userId moduleId sc now
        (progressFor userId moduleId st) st,
      ?_, rfl, rfl, rfl, rfl⟩
    rw [hmain, hW, hQ]
    simp

/-! ### Claim C4 -/

/-- Claim C4: the stored completed flag always equals
`percentage >= 100`.  Part one: flag consistency of every row is an
invariant of arbitrary call sequences.  Part two: an upsert with a
submitted percentage `p ∈ [0, 100]` stores percentage `p` and the flag
`decide (100 ≤ p)` — true exactly at the boundary `p = 100`, false below.
Part three: every complete call stores percentage 100 with the flag
true. -/
theorem C4_completed_iff_pct_ge_100 (modules : List Nat) :
    (∀ (st : ProgressStore) (ops : List ProgressOp),
      StoreConsistent st → StoreConsistent (runOps modules st ops)) ∧
    (∀ (userId moduleId : Nat) (p : Int) (ts sc : Option Int) (now : Nat)
        (st : ProgressStore), 0 ≤ p → p ≤ 100 →
      providedNegative ts = false → providedNegative sc = false →
      moduleId ∈ modules →
      ∃ row st',
        upsertProgress modules (.registered userId) moduleId (some p) ts sc
            now st = (.ok (some row), st') ∧
        row.porcentaje_completado = p ∧
        row.esta_completado = decide (100 ≤ p)) ∧
    (∀ (userId moduleId : Nat) (sc : Option Int) (now : Nat)
        (st : ProgressStore), moduleId ∈ modules →
      ∃ row st',
        completeProgress modules (.registered userId) moduleId sc now st
          = (.ok (some row), st') ∧
        row.porcentaje_completado = 100 ∧
        row.esta_completado = true) := by
  refine ⟨?_, ?_, ?_⟩
  · intro st ops h
    induction ops generalizing st with
    | nil => exact h
    | cons op ops ih => exact ih _ (storeConsistent_applyOp modules st op h)
  · intro userId moduleId p ts sc now st hp0 hp100 hts hsc hmod
    have hcp : providedOutOfPct (some p) = false := by
      simp only [providedOutOfPct, Bool.or_eq_false_iff,
        decide_eq_false_iff_not]
      omega
    obtain ⟨row, st', heq, hpct, _, _, hflag, _⟩ :=
      upsertProgress_ok modules userId moduleId (some p) ts sc now st hcp
        hts hsc hmod
    exact ⟨row, st', heq, by rw [hpct, jsOr0_some], by rw [hflag]; rfl⟩
  · intro userId moduleId sc now st hmod
    obtain ⟨row, st', heq, h100, htrue, _, _⟩ :=
      completeProgress_ok modules userId moduleId sc now st hmod
    exact ⟨row, st', heq, h100, htrue⟩

/-- Claim C4, witness: a run of two calls on the empty store stays
consistent, an upsert at the boundary 100, and a concrete complete. -/
theorem C4_completed_iff_pct_ge_100_witness :
    StoreConsistent (runOps [3] ⟨[], 1⟩
      [.upsert (.registered 7) 3 (some 100) none none 1,
       .complete (.registered 7) 3 (some 5) 2]) ∧
    (∃ row st',
      upsertProgress [3] (.registered 7) 3 (some 100) none none 1 ⟨[], 1⟩
        = (.ok (some row), st') ∧
      row.porcentaje_completado = 100 ∧
      row.esta_completado = decide ((100 : Int) ≤ 100)) ∧
    (∃ row st',
      completeProgress [3] (.registered 7) 3 (some 5) 2 ⟨[], 1⟩
        = (.ok (some row), st') ∧
      row.porcentaje_completado = 100 ∧
      row.esta_completado = true) := by
  refine ⟨?_, ?_, ?_⟩
  · exact (C4_completed_iff_pct_ge_100 [3]).1 ⟨[], 1⟩ _
      (fun r hr => absurd hr (List.not_mem_nil r))
  · exact (C4_completed_iff_pct_ge_100 [3]).2.1 7 3 100 none none 1 ⟨[], 1⟩
      (by norm_num) (by norm_num) rfl rfl (by simp)
  · exact (C4_completed_iff_pct_ge_100 [3]).2.2 7 3 (some 5) 2 ⟨[], 1⟩
      (by simp)

/-! ### Row-count lemmas for the uniqueness invariant -/

/-- Appending one row adds 1 to the count of its own pair and 0 to every
other pair. -/
theorem progressCount_append (u m : Nat) (st : ProgressStore)
    (row : ProgressRow) (n : Nat) :
    progressCount u m ⟨st.rows ++ [row], n⟩
      = progressCount u m st + (if matchesUserModule u m row then 1 else 0) := by
  unfold progressCount
  rw [progressFor_append u m st.rows row n st.nextId, List.length_append]
  congr 1
  split <;> rfl

/-- A guarded key-preserving update leaves every pair count unchanged. -/
theorem progressCount_mapUpdate (u m pid : Nat)
    (f : ProgressRow → ProgressRow)
    (hf : ∀ r, matchesUserModule u m (f r) = matchesUserModule u m r)
    (st : ProgressStore) (n : Nat) :
    progressCount u m
        ⟨st.rows.map (fun r => if r.id_progreso == pid then f r else r), n⟩
      = progressCount u m st := by
  unfold progressCount
  rw [progressFor_update u m pid f hf st n, List.length_map]

/-- Inserting a row whose pair currently has no row keeps every pair at
one row at most. -/
theorem unique_insert (st : ProgressStore) (row : ProgressRow) (n : Nat)
    (h : UniquePerUserModule st)
    (h0 : progressCount row.id_usuario row.id_modulo st = 0) :
    UniquePerUserModule ⟨st.rows ++ [row], n⟩ := by
  intro u m
  rw [progressCount_append u m st row n]
  by_cases hm : matchesUserModule u m row = true
  · have hum : row.id_usuario = u ∧ row.id_modulo = m := by
      simpa [matchesUserModule] using hm
    rw [if_pos hm]
    have hz : progressCount u m st = 0 := by
      rw [← hum.1, ← hum.2]
      exact h0
    omega
  · rw [if_neg hm]
    have := h u m
    omega

/-- A guarded key-preserving update keeps every pair at one row at most. -/
theorem unique_mapUpdate (st : ProgressStore) (n pid : Nat)
    (f : ProgressRow → ProgressRow)
    (hf : ∀ u m r, matchesUserModule u m (f r) = matchesUserModule u m r)
    (h : UniquePerUserModule st) :
    UniquePerUserModule
      ⟨st.rows.map (fun r => if r.id_progreso == pid then f r else r), n⟩ := by
  intro u m
  rw [progressCount_mapUpdate u m pid f (fun r => hf u m r) st n]
  exact h u m

/-- The atomic check-then-write upsert keeps every pair at one row at
most. -/
theorem unique_upsertWrite_self (userId moduleId : Nat)
    (cp ts sc : Option Int) (now : Nat) (st : ProgressStore)
    (h : UniquePerUserModule st) :
    UniquePerUserModule
      (upsertWrite userId moduleId cp ts sc now
        (progressFor userId moduleId st) st) := by
  cases hpf : progressFor userId moduleId st with
  | nil =>
    refine unique_insert st
      (upsertNewRow userId moduleId cp ts sc now st.nextId) (st.nextId + 1)
      h ?_
    simp [progressCount, upsertNewRow, hpf]
  | cons e rest =>
    exact unique_mapUpdate st st.nextId e.id_progreso _
      (fun u m r => matchesUserModule_upsertData u m cp ts sc now r) h

/-- The atomic check-then-write complete keeps every pair at one row at
most. -/
theorem unique_completeWrite_self (userId moduleId : Nat) (sc : Option Int)
    (now : Nat) (st : ProgressStore) (h : UniquePerUserModule st) :
    UniquePerUserModule
      (completeWrite userId moduleId sc now
        (progressFor userId moduleId st) st) := by
  cases hpf : progressFor userId moduleId st with
  | nil =>
    refine unique_insert st
      (completeNewRow userId moduleId sc now st.nextId) (st.nextId + 1)
      h ?_
    simp [progressCount, completeNewRow, hpf]
  | cons e rest =>
    exact unique_mapUpdate st st.nextId e.id_progreso _
      (fun u m r => matchesUserModule_completeData u m sc now r) h

/-- One atomically executed call keeps every pair at one row at most. -/
theorem unique_applyOp (modules : List Nat) (st : ProgressStore)
    (op : ProgressOp) (h : UniquePerUserModule st) :
    UniquePerUserModule (applyOp modules st op) := by
  cases op with
  | get i m =>
    show UniquePerUserModule (getProgress modules i m st).2
    rcases getProgress_snd_cases modules i m st with hc | ⟨u, _, hpf, hc⟩
    · rw [hc]; exact h
    · rw [hc]
      refine unique_insert st (getNewRow u m st.nextId) (st.nextId + 1) h ?_
      simp [progressCount, getNewRow, hpf]
  | upsert i m cp ts sc now =>
    show UniquePerUserModule (upsertProgress modules i m cp ts sc now st).2
    rcases upsertProgress_snd_cases modules i m cp ts sc now st with
      hc | ⟨u, _, hc⟩
    · rw [hc]; exact h
    · rw [hc]
      exact unique_upsertWrite_self u m cp ts sc now st h
  | complete i m sc now =>
    show UniquePerUserModule (completeProgress modules i m sc now st).2
    rcases completeProgress_snd_cases modules i m sc now st with
      hc | ⟨u, _, hc⟩
    · rw [hc]; exact h
    · rw [hc]
      exact unique_completeWrite_self u m sc now st h

/-! ### Claim C1 -/

/-- The final store of two racing upserts for the pair (7, 3) on an empty
store, with the interleaving SELECT-1, SELECT-2, WRITE-1, WRITE-2: the
route runs its existence SELECT and its INSERT/UPDATE as two separate
store operations, so both SELECTs can observe the empty store before
either write lands, and then both writes INSERT. -/
def raceFinalStore : ProgressStore :=
  upsertWrite 7 3 (some 60) (some 6) (some 2) 101 (progressFor 7 3 ⟨[], 1⟩)
    (upsertWrite 7 3 (some 40) (some 5) (some 1) 100
      (progressFor 7 3 ⟨[], 1⟩) ⟨[], 1⟩)

/-- Claim C1, counterexample: under the concurrent interleaving in which
both existence checks run before either write, the pair (7, 3) ends with
two Progress rows — the one-row-per-pair invariant does not hold
"regardless of concurrency". -/
theorem C1_race_duplicates_row :
    progressCount 7 3 raceFinalStore = 2 ∧
    ¬UniquePerUserModule raceFinalStore := by
  constructor
  · rfl
  · intro h
    have h73 := h 7 3
    have h2 : progressCount 7 3 raceFinalStore = 2 := rfl
    omega

/-- Claim C1 (amended): when every upsert, complete and get call runs
atomically (its existence check and its write without interleaving), any
sequence of calls starting from a store with at most one row per
(user, module) pair ends with at most one row per pair; the guarantee
fails only for concurrent interleavings of the non-atomic
check-then-write. -/
theorem C1_unique_rows_sequential (modules : List Nat) (st : ProgressStore)
    (ops : List ProgressOp) (h : UniquePerUserModule st) :
    UniquePerUserModule (runOps modules st ops) := by
  induction ops generalizing st with
  | nil => exact h
  | cons op ops ih => exact ih _ (unique_applyOp modules st op h)

/-- Claim C1, witness: three sequential calls for the same pair on the
empty store, ending with exactly one row for the pair. -/
theorem C1_unique_rows_sequential_witness :
    UniquePerUserModule (runOps [3] ⟨[], 1⟩
      [.upsert (.registered 7) 3 (some 40) none none 1,
       .upsert (.registered 7) 3 (some 60) none none 2,
       .complete (.registered 7) 3 (some 9) 3]) ∧
    progressCount 7 3 (runOps [3] ⟨[], 1⟩
      [.upsert (.registered 7) 3 (some 40) none none 1,
       .upsert (.registered 7) 3 (some 60) none none 2,
       .complete (.registered 7) 3 (some 9) 3]) = 1 := by
  constructor
  · exact C1_unique_rows_sequential [3] ⟨[], 1⟩ _ (fun u m => Nat.zero_le 1)
  · rfl

/-! ### Claim C7 -/

/-- The ORDER BY comparison characterized as a linear-arithmetic
proposition. -/
theorem lbLe_iff (a b : GameResultRow) : lbLe a b = true ↔
    b.puntuacion < a.puntuacion ∨
    (a.puntuacion = b.puntuacion ∧ b.nivel_alcanzado < a.nivel_alcanzado) ∨
    (a.puntuacion = b.puntuacion ∧ a.nivel_alcanzado = b.nivel_alcanzado ∧
      a.tiempo_jugado ≤ b.tiempo_jugado) := by
  unfold lbLe
  split_ifs with h1 h2 <;> simp only [decide_eq_true_eq] <;> omega

instance : IsTotal GameResultRow lbRel :=
  ⟨by
    intro a b
    unfold lbRel
    rw [lbLe_iff a b, lbLe_iff b a]
    omega⟩

instance : IsTrans GameResultRow lbRel :=
  ⟨by
    intro a b c hab hbc
    unfold lbRel at hab hbc ⊢
    rw [lbLe_iff] at hab hbc ⊢
    omega⟩

/-- The ORDER BY key on projected leaderboard entries. -/
def lbLeE (a b : LbRow) : Bool :=
  if a.score ≠ b.score then decide (b.score < a.score)
  else if a.level_reached ≠ b.level_reached then
    decide (b.level_reached < a.level_reached)
  else decide (a.time_played ≤ b.time_played)

/-- The projection keeps the three ordering fields, so the entry-level key
agrees with the row-level key. -/
theorem lbLeE_project (users guests : List (Nat × String))
    (r1 r2 : GameResultRow) :
    lbLeE (lbProject users guests r1) (lbProject users guests r2)
      = lbLe r1 r2 := rfl

/-- The ranks attached by `addRanks` starting at `n` are exactly
`n, n + 1, ...` in order. -/
theorem addRanks_map_rank : ∀ (n : Nat) (l : List LbRow),
    (addRanks n l).map (fun e => e.rank) = List.range' n l.length
  | _, [] => rfl
  | n, e :: l => by
    simp [addRanks, List.range', addRanks_map_rank (n + 1) l]

/-- Every entry produced by `addRanks` wraps an entry of the input. -/
theorem mem_addRanks : ∀ (n : Nat) (l : List LbRow) (x : RankedEntry),
    x ∈ addRanks n l → x.entry ∈ l
  | _, [], x, hx => absurd hx (List.not_mem_nil x)
  | n, e :: l, x, hx => by
    rcases List.mem_cons.mp hx with rfl | hx
    · exact List.mem_cons_self _ _
    · exact List.mem_cons_of_mem _ (mem_addRanks (n + 1) l x hx)

/-- `addRanks` preserves pairwise ordering of the underlying entries. -/
theorem pairwise_addRanks (S : LbRow → LbRow → Prop) :
    ∀ (n : Nat) (l : List LbRow), l.Pairwise S →
      (addRanks n l).Pairwise (fun x y => S x.entry y.entry)
  | _, [], _ => List.Pairwise.nil
  | n, e :: l, h => by
    rcases List.pairwise_cons.mp h with ⟨he, hl⟩
    refine List.pairwise_cons.mpr ⟨?_, pairwise_addRanks S (n + 1) l hl⟩
    intro x hx
    exact he x.entry (mem_addRanks (n + 1) l x hx)

/-- `getLeaderboard` written out: filter, sort, limit, project, rank. -/
theorem getLeaderboard_eq (users guests : List (Nat × String))
    (st : GameStore) (gameType : String) (q : Option Int) :
    getLeaderboard users guests st gameType q
      = addRanks 1 (((List.insertionSort lbRel
          (st.rows.filter (fun r => r.tipo_juego == gameType))).take
            (leaderboardLimit q).toNat).map (lbProject users guests)) := rfl

/-- The three stored results of the spec's leaderboard example:
(score 10, level 2, time 50), (10, 2, 30) and (15, 1, 99), all for game
type "g". -/
def exampleStore : GameStore :=
  ⟨[⟨1, some 1, none, ("g"), 10, 2, 50, none, 0⟩,
    ⟨2, some 1, none, ("g"), 10, 2, 30, none, 1⟩,
    ⟨3, some 2, none, ("g"), 15, 1, 99, none, 2⟩], 4⟩

/-- Claim C7: the leaderboard is ordered by score descending, then level
descending, then time ascending; ranks are exactly the 1-based positions
1, 2, ..., n (ties included — no shared rank); and on the example results
[(10,2,50), (10,2,30), (15,1,99)] the returned order is (15,1,99) rank 1,
(10,2,30) rank 2, (10,2,50) rank 3. -/
theorem C7_leaderboard_ordering (users guests : List (Nat × String))
    (st : GameStore) (gameType : String) (q : Option Int) :
    ((getLeaderboard users guests st gameType q).map (fun e => e.rank)
      = List.range' 1 (getLeaderboard users guests st gameType q).length) ∧
    (getLeaderboard users guests st gameType q).Pairwise
      (fun x y => lbLeE x.entry y.entry = true) ∧
    ((getLeaderboard [] [] exampleStore ("g") (some 10)).map
        (fun e => (e.rank, e.entry.score, e.entry.level_reached,
          e.entry.time_played))
      = [(1, 15, 1, 99), (2, 10, 2, 30), (3, 10, 2, 50)]) := by
  refine ⟨?_, ?_, ?_⟩
  · rw [getLeaderboard_eq, addRanks_length, addRanks_map_rank]
  · rw [getLeaderboard_eq]
    have hsorted : (List.insertionSort lbRel
        (st.rows.filter (fun r => r.tipo_juego == gameType))).Pairwise
          lbRel :=
      List.sorted_insertionSort lbRel _
    have htake : ((List.insertionSort lbRel
        (st.rows.filter (fun r => r.tipo_juego == gameType))).take
          (leaderboardLimit q).toNat).Pairwise lbRel :=
      List.Pairwise.sublist (List.take_sublist _ _) hsorted
    have hmap : (((List.insertionSort lbRel
        (st.rows.filter (fun r => r.tipo_juego == gameType))).take
          (leaderboardLimit q).toNat).map
            (lbProject users guests)).Pairwise
          (fun a b => lbLeE a b = true) := by
      refine List.Pairwise.map _ ?_ htake
      intro a b hab
      rw [lbLeE_project]
      exact hab
    exact pairwise_addRanks (fun a b => lbLeE a b = true) 1 _ hmap
  · rfl
